import Mathlib

/-!
# A11y Form Validator — verification of the field-resolution and rule-engine core

Shallow embedding of the core algorithms of the `a11y-form-validator-cdn`
repository (`src/index.js` — the Designer extension, and
`src/unnamed/part_000` / `src/unnamed/part_001` — the client validation
runtimes), together with proofs and refutations of the specified properties.

Strings are modelled as Lean `String`s / `List Char`; JavaScript
`toLowerCase()` is modelled at the ASCII level (`Char.toLower`), and the
regex class `\s` is modelled by the ASCII whitespace characters.  All other
character-level operations are exact transcriptions of the source.
-/

namespace A11y

/-! ## Basic string machinery (models of the JS string primitives used) -/

/-- Model of the JS regex class `\s` (ASCII part): space, tab, LF, VT, FF, CR. -/
def isJsWs (c : Char) : Bool :=
  c == ' ' || c == '\t' || c == '\n' || c == '\x0b' || c == '\x0c' || c == '\r'

/-- Model of JS `String.prototype.toLowerCase` at the ASCII level. -/
def lowerL (l : List Char) : List Char := l.map Char.toLower

/-- Model of JS `String.prototype.trim`: drop leading and trailing whitespace. -/
def trimWsL (l : List Char) : List Char :=
  ((l.dropWhile isJsWs).reverse.dropWhile isJsWs).reverse

/-- `hasPre n h` — `n` is a prefix of `h` (model of JS `startsWith`). -/
def hasPre : List Char → List Char → Bool
  | [], _ => true
  | _ :: _, [] => false
  | n :: ns, h :: hs => n == h && hasPre ns hs

/-- `hasSub n h` — `n` occurs as a contiguous substring of `h`
(model of JS `String.prototype.includes`). -/
def hasSub (n : List Char) : List Char → Bool
  | [] => n.isEmpty
  | c :: hs => hasPre n (c :: hs) || hasSub n hs

/-- `includes` on `String`s after `toLowerCase().trim()`, the idiom
`label.toLowerCase().trim().includes(keyword)` pervasive in the source. -/
def lcIncl (label : String) (kw : String) : Bool :=
  hasSub kw.data (trimWsL (lowerL label.data))

end A11y

namespace A11y

/-! ## FieldClassifier (src/index.js lines 3104-3184, 4947-5005) -/

/-- The six field classification outcomes of the scan
(`fieldType` values in `handleScanPage`, `unsupported` = skipped). -/
inductive FieldType where
  | email
  | phone
  | url
  | plain
  | message
  | unsupported
  deriving DecidableEq, Repr

/-- Keyword list of `isLikelyEmailField` (src/index.js lines 4953-4961). -/
def emailKeywords : List String :=
  ["email", "e-mail", "e mail", "email address", "email addr",
   "mail", "mail address", "mail addr", "contact email",
   "work email", "personal email", "business email", "primary email",
   "secondary email", "alternate email", "backup email", "recovery email",
   "notification email", "alert email", "newsletter email", "marketing email",
   "support email", "help email", "admin email", "technical email",
   "billing email", "invoice email", "receipt email", "confirmation email"]

/-- Keyword list of `isLikelyPhoneField` (src/index.js lines 4972-4981). -/
def phoneKeywords : List String :=
  ["phone", "telephone", "tel", "mobile", "cell", "cell phone",
   "phone number", "phone num", "mobile number", "mobile num",
   "contact phone", "work phone", "home phone", "business phone",
   "primary phone", "secondary phone", "alternate phone", "backup phone",
   "emergency phone", "emergency contact", "contact number", "phone contact",
   "landline", "land line", "office phone", "work number", "home number",
   "personal phone", "private phone", "direct phone", "extension",
   "fax", "fax number", "facsimile", "toll free", "toll-free"]

/-- Keyword list of `isLikelyUrlField` (src/index.js lines 4992-5002). -/
def urlKeywords : List String :=
  ["url", "website", "web site", "webpage", "web page", "link",
   "homepage", "home page", "site", "domain", "web address",
   "company website", "business website", "personal website",
   "portfolio", "portfolio site", "profile", "profile page",
   "social media", "social profile", "linkedin", "twitter", "facebook",
   "instagram", "github", "gitlab", "bitbucket", "codepen",
   "blog", "blog url", "blog site", "newsletter", "newsletter url",
   "landing page", "landing url", "referral url", "source url",
   "api", "api endpoint", "webhook", "callback url", "return url"]

/-- `isLikelyEmailField` (src/index.js lines 4947-4964): falsy label gives
`false`, otherwise case-insensitive substring match against the keyword list. -/
def likelyEmailStr (label : String) : Bool :=
  if label == "" then false
  else emailKeywords.any (fun kw => lcIncl label kw)

/-- `isLikelyPhoneField` (src/index.js lines 4966-4984). -/
def likelyPhoneStr (label : String) : Bool :=
  if label == "" then false
  else phoneKeywords.any (fun kw => lcIncl label kw)

/-- `isLikelyUrlField` (src/index.js lines 4986-5005). -/
def likelyUrlStr (label : String) : Bool :=
  if label == "" then false
  else urlKeywords.any (fun kw => lcIncl label kw)

/-- The message-family keyword test of the classification chain
(src/index.js lines 3173-3175). -/
def messageFamily (label : String) : Bool :=
  lcIncl label "message" || lcIncl label "comment" ||
  lcIncl label "description" || lcIncl label "notes" ||
  lcIncl label "feedback" || lcIncl label "inquiry"

/-- The field-type classification chain of `handleScanPage`
(src/index.js lines 3156-3184): first match wins, in the order
email → phone → url → name literal → message family; a label matching
no branch leaves `isValidFieldType` false, i.e. the field is treated as
unsupported. -/
def classifyStr (label : String) : FieldType :=
  if likelyEmailStr label then FieldType.email
  else if likelyPhoneStr label then FieldType.phone
  else if likelyUrlStr label then FieldType.url
  else if lcIncl label "name" then FieldType.plain
  else if messageFamily label then FieldType.message
  else FieldType.unsupported

/-- `classifyByLabel` lifted to nullable labels: each keyword helper guards
`if (!fieldLabel) return false`, so a null label matches no branch and the
field is treated as unsupported (src/index.js lines 4948, 4967, 4987). -/
def classifyByLabel : Option String → FieldType
  | none => FieldType.unsupported
  | some s => classifyStr s

/-- The relevance pre-filter applied before classification
(src/index.js lines 3106-3121): label must contain one of the listed
keywords or the field is skipped outright. -/
def isRelevantLabel (label : String) : Bool :=
  lcIncl label "name" || lcIncl label "email" || lcIncl label "phone" ||
  lcIncl label "url" || lcIncl label "website" || lcIncl label "telephone" ||
  lcIncl label "tel" || lcIncl label "mobile" || lcIncl label "cell" ||
  lcIncl label "message" || lcIncl label "comment" ||
  lcIncl label "description" || lcIncl label "notes" ||
  lcIncl label "feedback" || lcIncl label "inquiry"

end A11y

namespace A11y

/-! ## normalizeLabel (src/index.js lines 4928-4944 and 5395-5399)

Both occurrences run the same four-step pipeline:
`toLowerCase()`, then `replace(/[\s\-_]+/g, '-')` (collapse every maximal
run of whitespace/hyphen/underscore to one hyphen), then
`replace(/[^a-z0-9\-]/g, '')` (strip every other character), then
`replace(/^-+|-+$/g, '')` (trim leading and trailing hyphens). -/

/-- The regex class `[\s\-_]` of the collapsing step. -/
def isSepChar (c : Char) : Bool := isJsWs c || c == '-' || c == '_'

/-- Collapse every maximal run of separator characters to a single hyphen;
the flag records whether the previous character belonged to a separator run. -/
def collapseSepsAux : Bool → List Char → List Char
  | _, [] => []
  | prevSep, c :: rest =>
    if isSepChar c then
      if prevSep then collapseSepsAux true rest
      else '-' :: collapseSepsAux true rest
    else c :: collapseSepsAux false rest

/-- `replace(/[\s\-_]+/g, '-')`. -/
def collapseSeps (l : List Char) : List Char := collapseSepsAux false l

/-- The character class `[a-z0-9\-]` kept by the stripping step. -/
def isAllowedChar (c : Char) : Bool := c.isLower || c.isDigit || c == '-'

/-- `replace(/[^a-z0-9\-]/g, '')`. -/
def stripDisallowed (l : List Char) : List Char := l.filter isAllowedChar

/-- `replace(/^-+|-+$/g, '')`. -/
def trimHyphens (l : List Char) : List Char :=
  ((l.dropWhile (fun c => c == '-')).reverse.dropWhile (fun c => c == '-')).reverse

/-- The normalization pipeline on character lists. -/
def normalizeLabelL (l : List Char) : List Char :=
  trimHyphens (stripDisallowed (collapseSeps (lowerL l)))

/-- `normalizeLabel` — the canonical lowercase-hyphenated identifier
(src/index.js lines 4940-4943, identically 5396-5399). -/
def normalizeLabel (s : String) : String := String.mk (normalizeLabelL s.data)

/-- `getProperFieldId` (src/index.js lines 4928-4944): choose the field name
unless it is missing or generic, in which case fall back to the label (or
the literal `field`), then normalize. -/
def getProperFieldId (fieldName fieldLabel : String) : String :=
  let idToUse :=
    if fieldName == "no-name" || fieldName == "unnamed-field" || fieldName == "" then
      (if fieldLabel == "" then "field" else fieldLabel)
    else fieldName
  normalizeLabel idToUse

/-! ## Scan-time required resolution and field retention
(src/index.js lines 3104-3212) -/

/-- Outcome of probing the host for a field capability: the method is
absent, it throws, or it returns a value. -/
inductive RequiredProbe where
  | absent
  | throws
  | returns (b : Bool)
  deriving DecidableEq, Repr

/-- Scan-time required resolution (src/index.js lines 3130, 3144-3151):
`isRequired` is initialized to `true`; an absent `getRequired` leaves it
untouched, and a throwing `getRequired` is swallowed by an empty catch
block, also leaving it `true` (the comment "fallback to false" in the
source does not match what the code does). -/
def resolveScanRequired : RequiredProbe → Bool
  | .returns b => b
  | _ => true

/-- Retention decision of `handleScanPage` for one candidate field
(src/index.js lines 3104-3212): skip unless the label matches the
relevance keyword pre-filter, skip when the classification chain leaves
`isValidFieldType` false, and finally push only when `isRequired`. -/
def retainField (label : String) (p : RequiredProbe) : Bool :=
  if !(isRelevantLabel label) then false
  else if classifyStr label == FieldType.unsupported then false
  else resolveScanRequired p

/-- `checkFieldRequirement` attribute phase (src/index.js lines 7017-7072),
as a function of the five attribute reads it performs; used by the
error-messaging flow (`getRequiredFields`), not by the scan retention. -/
def checkFieldRequirementB
    (requiredAttr ariaAttr customAttr needsErrAttr typeAttr : Option String) : Bool :=
  let hasRequired := requiredAttr == some "required" || requiredAttr == some "true"
  let hasAriaRequired := ariaAttr == some "true"
  let hasCustomRequired := customAttr == some "true"
  let needsErrorContainer := needsErrAttr == some "true"
  let isEmailField := typeAttr == some "email"
  hasRequired || hasAriaRequired || hasCustomRequired || isEmailField || needsErrorContainer

/-! ## The three phone rules (src/index.js line 5299,
src/unnamed/part_001 lines 1037-1044, src/unnamed/part_000 lines 176-184) -/

/-- The character class `[0-9\s\-\(\)\+]` shared by the written `pattern`
attribute and the embedded runtime regex. -/
def phoneClassChar (c : Char) : Bool :=
  c.isDigit || isJsWs c || c == '-' || c == '(' || c == ')' || c == '+'

/-- The phone `pattern` attribute written at annotation time,
`[0-9\s\-\(\)\+]{10,}` (src/index.js line 5299); an HTML `pattern` must
match the entire value. -/
def appliedPhonePatternOk (s : String) : Bool :=
  decide (10 <= s.data.length) && s.data.all phoneClassChar

/-- The embedded runtime phone regex `^[0-9\s\-\(\)\+]{10,}$`
(src/unnamed/part_001 line 1039). -/
def embeddedPhoneRegexOk (s : String) : Bool :=
  decide (10 <= s.data.length) && s.data.all phoneClassChar

/-- The standalone runtime first strips `[\s\-\(\)\.]`
(src/unnamed/part_000 line 179). -/
def loosePhoneStrip (l : List Char) : List Char :=
  l.filter (fun c => !(isJsWs c || c == '-' || c == '(' || c == ')' || c == '.'))

/-- `[1-9][\d]{0,15}` — a nonzero digit followed by up to 15 digits. -/
def looseDigits : List Char → Bool
  | [] => false
  | d :: rest =>
    decide ('1' <= d) && decide (d <= '9') && rest.all Char.isDigit &&
    decide (rest.length <= 15)

/-- The standalone runtime phone regex `^[\+]?[1-9][\d]{0,15}$`
(src/unnamed/part_000 line 178), applied to the stripped value. -/
def loosePhoneRegexOk : List Char → Bool
  | '+' :: rest => looseDigits rest
  | l => looseDigits l

/-- The standalone runtime phone acceptance
(src/unnamed/part_000 lines 176-184). -/
def standalonePhoneOk (s : String) : Bool :=
  loosePhoneRegexOk (loosePhoneStrip s.data)

end A11y

namespace A11y

/-! ## Attribute state and the RuleEngine
(src/index.js: `applyValidationToForm` 4119-4244, `applyEnhancedFieldValidation`
5135-5354, `setupCustomCodeErrorMessaging` 5357-5448,
`cleanupExistingValidation` 4773-4861, `removeAllValidations` 4316-4367)

A node's declarative attributes are modelled as an association list from
attribute name to value; `setAttr` models `setCustomAttribute` /
`setOptimalAttribute` (insert-or-overwrite) and attribute collections are
compared extensionally through `getAttr`. -/

/-- A node's attribute map. -/
abbrev AttrState := List (String × String)

/-- Attribute lookup (first binding wins, as in a map). -/
def getAttr (st : AttrState) (k : String) : Option String :=
  (st.find? (fun kv => kv.1 == k)).map (fun kv => kv.2)

/-- Delete every binding of key `k` (model of `removeCustomAttribute`). -/
def removeKey (k : String) (st : AttrState) : AttrState :=
  st.filter (fun kv => !(kv.1 == k))

/-- Insert-or-overwrite a binding (model of `setCustomAttribute`). -/
def setAttr (k v : String) (st : AttrState) : AttrState :=
  (k, v) :: removeKey k st

/-- Perform a list of writes in order. -/
def setAll (ws : List (String × String)) (st : AttrState) : AttrState :=
  ws.foldl (fun s kv => setAttr kv.1 kv.2 s) st

/-- The fixed `starterPlanAttributes` removal list of
`cleanupExistingValidation` (src/index.js lines 4782-4805). -/
def starterPlanAttributes : List String :=
  ["data-a11y-validator", "data-a11y-timestamp", "novalidate", "required",
   "aria-required", "aria-describedby", "type", "pattern", "autocomplete",
   "data-error-id", "data-needs-error-container", "data-error-container-type",
   "data-field-label", "data-proper-field-id", "data-embed-id",
   "data-embed-class", "data-embed-field-id", "data-embed-error-container-id",
   "data-error-container-class", "data-error-container-role",
   "data-error-container-aria-live", "data-error-container-aria-atomic"]

/-- The `starterPlanKeywords` of the future-proof sweep
(src/index.js line 4834). -/
def cleanupKeywords : List String :=
  ["error", "a11y", "validator", "validation", "required", "aria", "embed"]

/-- The future-proof sweep condition (src/index.js lines 4837-4849): a
`data-` attribute whose lowercased name contains one of the keywords is
removed, unless the name contains `length`, `min` or `max`. -/
def sweepRemoves (k : String) : Bool :=
  let kl := lowerL k.data
  hasPre "data-".data k.data &&
  cleanupKeywords.any (fun kw => hasSub kw.data kl) &&
  !(hasSub "length".data kl || hasSub "min".data kl || hasSub "max".data kl)

/-- The set of attribute names `cleanupExistingValidation` deletes: the
fixed Starter-plan list (the loop at lines 4817-4828, on the Starter plan)
plus everything the future-proof sweep matches. -/
def cleanupRemoves (k : String) : Bool :=
  starterPlanAttributes.contains k || sweepRemoves k

/-- `cleanupExistingValidation` as a state transformer (src/index.js lines
4773-4861): every removal is attempted under its own try/catch, so the net
effect on the attribute map is to drop exactly the matched names. -/
def cleanupValidationAttrs (st : AttrState) : AttrState :=
  st.filter (fun kv => !(cleanupRemoves kv.1))

/-- A resolved field record as the scan hands it to the rule engine
(`fieldInfo` of src/index.js lines 3186-3194; `type` there already has the
`Form` prefix stripped). -/
structure RField where
  label : String
  name : String
  ftype : String
  required : Bool
  deriving DecidableEq, Repr

/-- The validation rule configuration read from the panel
(`settings.rules`, src/index.js lines 4077-4117). -/
structure Rules where
  required : Bool
  email : Bool
  phone : Bool
  url : Bool
  deriving DecidableEq, Repr

/-- `isCustomWidgetElement` (src/index.js lines 5451-5503): the element id
is literally `fieldSet` or `Legend`, the element type is `DOM`, and the
parent element is a `FormForm`. -/
def isCustomWidgetB (elemId elemType : String) (parentType : Option String) : Bool :=
  (elemId == "fieldSet" || elemId == "Legend") && elemType == "DOM" &&
  parentType == some "FormForm"

/-- The required-ness resolution inside `applyEnhancedFieldValidation`
(src/index.js lines 5241-5264): trust `field.required` first; otherwise
probe `getRequired()` (`hr`), then fall back to the node's current
`required` attribute (`tattr`); if the probe throws, the catch leaves the
flag at `field.required === true`. -/
def resolveApplyRequired (fr : Bool) (hr : RequiredProbe) (tattr : Option String) : Bool :=
  let tertiary := tattr == some "required" || tattr == some "true"
  if fr then true
  else
    match hr with
    | .returns b => b || tertiary
    | .absent => tertiary
    | .throws => false

/-- The email `pattern` attribute value (src/index.js line 5288). -/
def emailPatternStr : String := "[a-zA-Z0-9._%+-]+@[a-zA-Z0-9.-]+\\.[a-zA-Z]\x7b2,\x7d"

/-- The phone `pattern` attribute value (src/index.js line 5299). -/
def phonePatternStr : String := "[0-9\\s\\-\\(\\)\\+]\x7b10,\x7d"

/-- `getAutocompleteValue` (src/index.js lines 5008-5131), transcribed
branch for branch; `none` models the JS `null`. -/
def getAutocompleteValue (fieldLabel : String) (ftype : String) : Option String :=
  if fieldLabel == "" then none
  else if ftype == "FormTextarea" then some "off"
  else if lcIncl fieldLabel "message" || lcIncl fieldLabel "comment" ||
      lcIncl fieldLabel "description" || lcIncl fieldLabel "notes" ||
      lcIncl fieldLabel "feedback" || lcIncl fieldLabel "inquiry" ||
      lcIncl fieldLabel "question" || lcIncl fieldLabel "details" ||
      lcIncl fieldLabel "content" || lcIncl fieldLabel "body" ||
      lcIncl fieldLabel "text" || lcIncl fieldLabel "story" ||
      lcIncl fieldLabel "narrative" || lcIncl fieldLabel "explanation" ||
      lcIncl fieldLabel "reason" || lcIncl fieldLabel "additional information" ||
      lcIncl fieldLabel "other" || lcIncl fieldLabel "remarks" then some "off"
  else if lcIncl fieldLabel "name" || lcIncl fieldLabel "full name" ||
      lcIncl fieldLabel "fullname" || lcIncl fieldLabel "display name" ||
      lcIncl fieldLabel "preferred name" || lcIncl fieldLabel "nickname" then some "name"
  else if lcIncl fieldLabel "first name" || lcIncl fieldLabel "firstname" ||
      lcIncl fieldLabel "given name" || lcIncl fieldLabel "forename" ||
      lcIncl fieldLabel "christian name" || lcIncl fieldLabel "personal name" then
    some "given-name"
  else if lcIncl fieldLabel "last name" || lcIncl fieldLabel "lastname" ||
      lcIncl fieldLabel "surname" || lcIncl fieldLabel "family name" ||
      lcIncl fieldLabel "second name" || lcIncl fieldLabel "maiden name" then
    some "family-name"
  else if lcIncl fieldLabel "middle name" || lcIncl fieldLabel "middlename" ||
      lcIncl fieldLabel "middle initial" || lcIncl fieldLabel "second name" ||
      lcIncl fieldLabel "additional name" then some "additional-name"
  else if likelyEmailStr fieldLabel then some "email"
  else if likelyPhoneStr fieldLabel then some "tel"
  else if likelyUrlStr fieldLabel then some "url"
  else if lcIncl fieldLabel "address" || lcIncl fieldLabel "street" ||
      lcIncl fieldLabel "street address" || lcIncl fieldLabel "home address" ||
      lcIncl fieldLabel "mailing address" || lcIncl fieldLabel "billing address" ||
      lcIncl fieldLabel "shipping address" || lcIncl fieldLabel "residential address" ||
      lcIncl fieldLabel "physical address" then some "street-address"
  else if lcIncl fieldLabel "city" || lcIncl fieldLabel "town" ||
      lcIncl fieldLabel "municipality" || lcIncl fieldLabel "locality" ||
      lcIncl fieldLabel "urban area" then some "address-level2"
  else if lcIncl fieldLabel "state" || lcIncl fieldLabel "province" ||
      lcIncl fieldLabel "region" || lcIncl fieldLabel "territory" ||
      lcIncl fieldLabel "county" || lcIncl fieldLabel "district" ||
      lcIncl fieldLabel "prefecture" || lcIncl fieldLabel "canton" then
    some "address-level1"
  else if lcIncl fieldLabel "zip" || lcIncl fieldLabel "postal" ||
      lcIncl fieldLabel "postcode" || lcIncl fieldLabel "zip code" ||
      lcIncl fieldLabel "postal code" || lcIncl fieldLabel "zipcode" ||
      lcIncl fieldLabel "postalcode" || lcIncl fieldLabel "pin code" ||
      lcIncl fieldLabel "pincode" then some "postal-code"
  else if lcIncl fieldLabel "country" || lcIncl fieldLabel "nation" ||
      lcIncl fieldLabel "residence country" || lcIncl fieldLabel "home country" ||
      lcIncl fieldLabel "citizenship" then some "country"
  else if lcIncl fieldLabel "company" || lcIncl fieldLabel "organization" ||
      lcIncl fieldLabel "org" || lcIncl fieldLabel "employer" ||
      lcIncl fieldLabel "business" || lcIncl fieldLabel "corporation" ||
      lcIncl fieldLabel "firm" || lcIncl fieldLabel "enterprise" ||
      lcIncl fieldLabel "institution" || lcIncl fieldLabel "agency" ||
      lcIncl fieldLabel "association" || lcIncl fieldLabel "society" ||
      lcIncl fieldLabel "workplace" || lcIncl fieldLabel "office" ||
      lcIncl fieldLabel "employer name" then
    (if lcIncl fieldLabel "message" || lcIncl fieldLabel "comment" ||
        lcIncl fieldLabel "description" || lcIncl fieldLabel "notes" ||
        lcIncl fieldLabel "feedback" || lcIncl fieldLabel "inquiry" then some "off"
     else some "organization")
  else if lcIncl fieldLabel "job title" || lcIncl fieldLabel "jobtitle" ||
      lcIncl fieldLabel "position" || lcIncl fieldLabel "role" ||
      lcIncl fieldLabel "title" || lcIncl fieldLabel "job position" ||
      lcIncl fieldLabel "occupation" || lcIncl fieldLabel "profession" ||
      lcIncl fieldLabel "career" || lcIncl fieldLabel "work title" ||
      lcIncl fieldLabel "employment title" || lcIncl fieldLabel "job role" ||
      lcIncl fieldLabel "designation" || lcIncl fieldLabel "rank" ||
      lcIncl fieldLabel "level" then some "organization-title"
  else if lcIncl fieldLabel "birth" || lcIncl fieldLabel "birthday" ||
      lcIncl fieldLabel "dob" || lcIncl fieldLabel "date of birth" ||
      lcIncl fieldLabel "birth date" || lcIncl fieldLabel "born" ||
      lcIncl fieldLabel "age" || lcIncl fieldLabel "birth year" ||
      lcIncl fieldLabel "birthday date" then some "bday"
  else if lcIncl fieldLabel "username" || lcIncl fieldLabel "user name" ||
      lcIncl fieldLabel "login" || lcIncl fieldLabel "user id" ||
      lcIncl fieldLabel "userid" || lcIncl fieldLabel "account name" ||
      lcIncl fieldLabel "screen name" || lcIncl fieldLabel "handle" ||
      lcIncl fieldLabel "alias" || lcIncl fieldLabel "user" ||
      lcIncl fieldLabel "login name" || lcIncl fieldLabel "account" then
    some "username"
  else if lcIncl fieldLabel "password" || lcIncl fieldLabel "pass" ||
      lcIncl fieldLabel "pwd" || lcIncl fieldLabel "passcode" ||
      lcIncl fieldLabel "pass code" || lcIncl fieldLabel "secret" ||
      lcIncl fieldLabel "pin" || lcIncl fieldLabel "security code" ||
      lcIncl fieldLabel "access code" then some "current-password"
  else none

end A11y

namespace A11y

/-- The ordered attribute writes of `applyEnhancedFieldValidation` plus its
call into `setupCustomCodeErrorMessaging` (src/index.js lines 5135-5354 and
5357-5448), as a function of the field record, the rule configuration, the
custom-widget predicate result `cw`, the host required probe `hr`, and the
node's current `required` attribute `tattr` (read at line 5255 before any
write).  `fieldName` models `field.name || field.id || 'unnamed-field'`
(line 5139, with missing name modelled as the empty string) and
`fieldLabel` models `field.label || fieldName` (line 5140); the error-wiring
step uses the scanned label (the Designer label-element lookup of lines
5369-5393 falls back to it). -/
def applyFieldName (f : RField) : String :=
  if f.name == "" then "unnamed-field" else f.name

def applyFieldLabel (f : RField) : String :=
  if f.label == "" then applyFieldName f else f.label

/-- The error-wiring writes of `setupCustomCodeErrorMessaging`
(src/index.js lines 5396-5412), computed from the scanned label. -/
def errWiringWrites (f : RField) : List (String × String) :=
  let nl := normalizeLabel (applyFieldLabel f)
  let pid := getProperFieldId (applyFieldName f) nl
  [("data-error-id", pid ++ "-error"), ("data-field-label", nl),
   ("data-proper-field-id", pid), ("data-auto-error-messaging", "true")]

/-- The ordered writes as a function of the already-resolved
`isFieldRequired` flag (the code computes the flag first, lines
5241-5264, then branches on it). -/
def fieldWritesCore (f : RField) (s : Rules) (cw : Bool)
    (isFieldRequired : Bool) : List (String × String) :=
  (if s.required && isFieldRequired then
    (if cw then [("aria-required", "true")] else [("required", "required")]) ++
      [("data-needs-error-container", "true")]
  else []) ++
  (if f.ftype == "FormTextInput" && s.email && likelyEmailStr (applyFieldLabel f) then
    [("type", "email"), ("pattern", emailPatternStr)]
  else []) ++
  (if f.ftype == "FormTextInput" && s.phone && likelyPhoneStr (applyFieldLabel f) then
    [("type", "tel"), ("pattern", phonePatternStr)]
  else []) ++
  (if f.ftype == "FormTextInput" && s.url && likelyUrlStr (applyFieldLabel f) then
    [("type", "url")]
  else []) ++
  [("data-needs-error-container", "true")] ++
  (if s.required then errWiringWrites f else []) ++
  (match getAutocompleteValue (applyFieldLabel f) f.ftype with
   | some v => [("autocomplete", v)]
   | none => [])

def fieldWrites (f : RField) (s : Rules) (cw : Bool) (hr : RequiredProbe)
    (tattr : Option String) : List (String × String) :=
  fieldWritesCore f s cw (resolveApplyRequired f.required hr tattr)

/-- Field-level apply (`applyEnhancedFieldValidation`) as a transformer of
the field node's attribute state. -/
def applyFieldValidation (f : RField) (s : Rules) (cw : Bool) (hr : RequiredProbe)
    (st : AttrState) : AttrState :=
  setAll (fieldWrites f s cw hr (getAttr st "required")) st

/-- The form-level writes of `applyValidationToForm`
(src/index.js lines 4164-4188): `novalidate`, the sentinel, and the
wall-clock timestamp `new Date().toLocaleString()`, taken as input `ts`. -/
def formWrites (ts : String) : List (String × String) :=
  [("novalidate", "novalidate"), ("data-a11y-validator", "enabled"),
   ("data-a11y-timestamp", ts)]

/-- The sentinel detection of `applyValidationToForm`
(src/index.js line 4135): the key is present, whatever its value. -/
def hasSentinel (st : AttrState) : Bool :=
  st.any (fun kv => kv.1 == "data-a11y-validator")

/-- One `applyValidationToForm` pass over a one-field form, on the pair
(form node attributes, field node attributes): detect the sentinel on the
form node and clean the form node if present (lines 4131-4144), write the
form-level attributes, and run the field-level apply.  The field node is
never sentinel-checked or cleaned by this path. -/
def applyValidationPipeline (f : RField) (s : Rules) (cw : Bool)
    (hr : RequiredProbe) (ts : String) (st : AttrState × AttrState) :
    AttrState × AttrState :=
  let F := if hasSentinel st.1 then cleanupValidationAttrs st.1 else st.1
  (setAll (formWrites ts) F, applyFieldValidation f s cw hr st.2)

/-- `removeAllValidations` (src/index.js lines 4316-4367): run
`cleanupExistingValidation` on the form node and on each field node. -/
def removeValidationPipeline (st : AttrState × AttrState) : AttrState × AttrState :=
  (cleanupValidationAttrs st.1, cleanupValidationAttrs st.2)

/-- Every attribute name the modelled apply path can write. -/
def annotationKeys : List String :=
  ["novalidate", "data-a11y-validator", "data-a11y-timestamp", "required",
   "aria-required", "data-needs-error-container", "type", "pattern",
   "data-error-id", "data-field-label", "data-proper-field-id",
   "data-auto-error-messaging", "autocomplete"]

end A11y

namespace A11y

/-! ## Positional fallback of form membership
(src/index.js lines 3081-3102)

`handleScanPage` iterates over the flattened `allElements` snapshot; when
structural containment fails for a candidate field, it falls back to the
boundary analysis modelled here. -/

/-- One entry of the flattened `allElements` snapshot: a stable element id
and the element type tag. -/
structure PElem where
  eid : Nat
  etype : String
  deriving DecidableEq, Repr

/-- Offset of the first `FormForm` entry of a list, if any (the search loop
of src/index.js lines 3090-3095). -/
def findFormOff : List PElem → Option Nat
  | [] => none
  | e :: rest =>
    if e.etype == "FormForm" then some 0
    else (findFormOff rest).map (fun k => k + 1)

/-- `nextFormIndex`: the first index strictly after `i` holding a
`FormForm` element (src/index.js lines 3089-3095; `none` models `-1`). -/
def nextFormIdx (els : List PElem) (i : Nat) : Option Nat :=
  (findFormOff (els.drop (i + 1))).map (fun k => i + 1 + k)

/-- The positional fallback (src/index.js lines 3083-3102): the field at
`fieldIdx` belongs to the form with id `formId` when the form is found in
the snapshot, the field lies strictly after it, and either no further
`FormForm` exists or the field lies strictly before the next one. -/
def positionalBelongs (els : List PElem) (formId : Nat) (fieldIdx : Nat) : Bool :=
  match els.findIdx? (fun e => e.eid == formId) with
  | none => false
  | some fi =>
    decide (fi < fieldIdx) &&
    (match nextFormIdx els fi with
     | none => true
     | some n => decide (fieldIdx < n))

end A11y

namespace A11y

/-! ## Attribute-state lemma toolkit -/

/-- Last-write-wins lookup into a write list. -/
def lastAssoc (ws : List (String × String)) (k : String) : Option String :=
  match ws with
  | [] => none
  | kv :: rest =>
    match lastAssoc rest k with
    | some v => some v
    | none => if kv.1 = k then some kv.2 else none

theorem getAttr_cons (a b k : String) (st : AttrState) :
    getAttr ((a, b) :: st) k = if a = k then some b else getAttr st k := by
  by_cases h : a = k <;> simp [getAttr, List.find?_cons, h]

theorem getAttr_removeKey (k k' : String) (st : AttrState) :
    getAttr (removeKey k st) k' = if k' = k then none else getAttr st k' := by
  induction st with
  | nil => by_cases h : k' = k <;> simp [removeKey, getAttr, h]
  | cons kv rest ih =>
    obtain ⟨a, b⟩ := kv
    have hfold : List.filter (fun kv => !(kv.1 == k)) rest = removeKey k rest := rfl
    rw [removeKey, List.filter_cons]
    by_cases hak : a = k <;> by_cases hak' : a = k' <;> by_cases hkk : k' = k <;>
      simp_all [hfold, getAttr_cons, Bool.cond_eq_if]

theorem getAttr_setAttr (k v k' : String) (st : AttrState) :
    getAttr (setAttr k v st) k' = if k = k' then some v else getAttr st k' := by
  by_cases h : k = k'
  · subst h; simp [setAttr, getAttr_cons]
  · have h' : k' ≠ k := fun hc => h hc.symm
    simp [setAttr, getAttr_cons, h, getAttr_removeKey, h']

theorem getAttr_setAll (ws : List (String × String)) (st : AttrState) (k : String) :
    getAttr (setAll ws st) k =
      match lastAssoc ws k with
      | some v => some v
      | none => getAttr st k := by
  induction ws generalizing st with
  | nil => simp [setAll, lastAssoc]
  | cons kv rest ih =>
    obtain ⟨a, b⟩ := kv
    have step : setAll ((a, b) :: rest) st = setAll rest (setAttr a b st) := rfl
    rw [step, ih]
    cases hrest : lastAssoc rest k with
    | some v => simp [lastAssoc, hrest]
    | none =>
      by_cases hak : a = k <;> simp [lastAssoc, hrest, getAttr_setAttr, hak]

theorem lastAssoc_eq_none (ws : List (String × String)) (k : String)
    (h : ∀ kv ∈ ws, kv.1 ≠ k) : lastAssoc ws k = none := by
  induction ws with
  | nil => rfl
  | cons kv rest ih =>
    have hk : kv.1 ≠ k := h kv (List.mem_cons_self kv rest)
    have : lastAssoc rest k = none := ih (fun kv' h' => h kv' (List.mem_cons_of_mem kv h'))
    simp [lastAssoc, this, hk]

theorem getAttr_setAll_of_not_written (ws : List (String × String)) (st : AttrState)
    (k : String) (h : ∀ kv ∈ ws, kv.1 ≠ k) :
    getAttr (setAll ws st) k = getAttr st k := by
  rw [getAttr_setAll, lastAssoc_eq_none ws k h]

theorem getAttr_cleanup (st : AttrState) (k : String) :
    getAttr (cleanupValidationAttrs st) k =
      if cleanupRemoves k then none else getAttr st k := by
  induction st with
  | nil => by_cases h : cleanupRemoves k <;> simp [cleanupValidationAttrs, getAttr, h]
  | cons kv rest ih =>
    obtain ⟨a, b⟩ := kv
    have hfold : List.filter (fun kv => !cleanupRemoves kv.1) rest =
        cleanupValidationAttrs rest := rfl
    rw [cleanupValidationAttrs, List.filter_cons]
    by_cases hra : cleanupRemoves a <;> by_cases hak : a = k <;>
      by_cases hrk : cleanupRemoves k <;>
      simp_all [hfold, getAttr_cons, Bool.cond_eq_if]

theorem cleanup_noop (st : AttrState)
    (h : ∀ kv ∈ st, cleanupRemoves kv.1 = false) :
    cleanupValidationAttrs st = st := by
  induction st with
  | nil => rfl
  | cons kv rest ih =>
    have hk := h kv (List.mem_cons_self kv rest)
    have hrest := ih (fun kv' h' => h kv' (List.mem_cons_of_mem kv h'))
    simp [cleanupValidationAttrs, hk] at hrest ⊢
    exact hrest

end A11y

namespace A11y

/-! ## Claim C4 — classifyByLabel is total, deterministic, priority-ordered -/

/-- C4: `classifyByLabel` is total and deterministic: for every label
(including empty and null) it returns exactly one of the six values
email, phone, url, plain, message, unsupported, and never throws; it
follows first-match priority email → phone → url → name literal →
message family → unsupported, and an empty or null label yields
unsupported.  (Totality and determinism are intrinsic to the embedding:
`classifyByLabel` is a Lean function.) -/
theorem c4_classify_total_and_priority :
    (∀ l : Option String,
      classifyByLabel l = FieldType.email ∨ classifyByLabel l = FieldType.phone ∨
      classifyByLabel l = FieldType.url ∨ classifyByLabel l = FieldType.plain ∨
      classifyByLabel l = FieldType.message ∨ classifyByLabel l = FieldType.unsupported) ∧
    (∀ s : String, likelyEmailStr s = true → classifyStr s = FieldType.email) ∧
    (∀ s : String, likelyEmailStr s = false → likelyPhoneStr s = true →
      classifyStr s = FieldType.phone) ∧
    (∀ s : String, likelyEmailStr s = false → likelyPhoneStr s = false →
      likelyUrlStr s = true → classifyStr s = FieldType.url) ∧
    (∀ s : String, likelyEmailStr s = false → likelyPhoneStr s = false →
      likelyUrlStr s = false → lcIncl s "name" = true →
      classifyStr s = FieldType.plain) ∧
    (∀ s : String, likelyEmailStr s = false → likelyPhoneStr s = false →
      likelyUrlStr s = false → lcIncl s "name" = false → messageFamily s = true →
      classifyStr s = FieldType.message) ∧
    (∀ s : String, likelyEmailStr s = false → likelyPhoneStr s = false →
      likelyUrlStr s = false → lcIncl s "name" = false → messageFamily s = false →
      classifyStr s = FieldType.unsupported) ∧
    classifyByLabel none = FieldType.unsupported ∧
    classifyStr "" = FieldType.unsupported := by
  refine ⟨?_, ?_, ?_, ?_, ?_, ?_, ?_, rfl, by decide⟩
  · intro l
    cases l with
    | none => simp [classifyByLabel]
    | some s =>
      simp only [classifyByLabel]
      unfold classifyStr
      split_ifs <;> simp
  all_goals
    intro s
    intros
    unfold classifyStr
    simp_all

/-- Witness for C4 at a concrete label: `"Work Email"` matches the email
keyword family and classifies as email. -/
theorem c4_classify_witness :
    likelyEmailStr "Work Email" = true ∧
    classifyByLabel (some "Work Email") = FieldType.email := by
  refine ⟨by decide, ?_⟩
  show classifyStr "Work Email" = FieldType.email
  exact c4_classify_total_and_priority.2.1 "Work Email" (by decide)

end A11y

namespace A11y

/-! ## Character-class and normalization lemmas (support for claim C5) -/

theorem toLower_fixed_of_isLower (c : Char) (h : c.isLower = true) :
    c.toLower = c := by
  simp only [Char.isLower, Bool.and_eq_true, decide_eq_true_eq] at h
  have h1 : (97 : UInt32).toNat <= c.val.toNat := h.1
  have h2 : (97 : UInt32).toNat = 97 := rfl
  simp only [Char.toLower, Char.toNat]
  rw [if_neg]
  omega

theorem toLower_fixed_of_isDigit (c : Char) (h : c.isDigit = true) :
    c.toLower = c := by
  simp only [Char.isDigit, Bool.and_eq_true, decide_eq_true_eq] at h
  have h1 : c.val.toNat <= (57 : UInt32).toNat := h.2
  have h2 : (57 : UInt32).toNat = 57 := rfl
  simp only [Char.toLower, Char.toNat]
  rw [if_neg]
  omega

theorem toLower_fixed_of_allowed (c : Char) (h : isAllowedChar c = true) :
    c.toLower = c := by
  simp only [isAllowedChar, Bool.or_eq_true] at h
  rcases h with (h | h) | h
  · exact toLower_fixed_of_isLower c h
  · exact toLower_fixed_of_isDigit c h
  · have : c = '-' := by simpa using h
    subst this
    decide

theorem sep_allowed_eq_hyphen (c : Char) (ha : isAllowedChar c = true)
    (hs : isSepChar c = true) : c = '-' := by
  simp only [isSepChar, isJsWs, Bool.or_eq_true, beq_iff_eq] at hs
  rcases hs with ((((((h | h) | h) | h) | h) | h) | h) | h <;> subst h <;>
    first
    | rfl
    | simp [isAllowedChar, Char.isLower, Char.isDigit] at ha

/-- Head-of-list separator test. -/
def headSep : List Char → Bool
  | [] => false
  | c :: _ => isSepChar c

/-- No two adjacent characters are both separators. -/
def noAdjSeps : List Char → Bool
  | c1 :: c2 :: rest => !(isSepChar c1 && isSepChar c2) && noAdjSeps (c2 :: rest)
  | _ => true

theorem noAdjSeps_tail (c : Char) (l : List Char)
    (h : noAdjSeps (c :: l) = true) : noAdjSeps l = true := by
  cases l with
  | nil => rfl
  | cons c2 rest =>
    have h' : (!(isSepChar c && isSepChar c2) && noAdjSeps (c2 :: rest)) = true := h
    rw [Bool.and_eq_true] at h'
    exact h'.2

theorem mem_collapseSepsAux (b : Bool) (l : List Char) (c : Char)
    (h : c ∈ collapseSepsAux b l) :
    c = '-' ∨ (c ∈ l ∧ isSepChar c = false) := by
  induction l generalizing b with
  | nil => simp [collapseSepsAux] at h
  | cons a rest ih =>
    by_cases ha : isSepChar a = true
    · cases b with
      | true =>
        simp only [collapseSepsAux, ha, if_pos, if_true] at h
        rcases ih true h with h' | h'
        · exact Or.inl h'
        · exact Or.inr ⟨List.mem_cons_of_mem a h'.1, h'.2⟩
      | false =>
        simp only [collapseSepsAux, ha, if_pos, if_false] at h
        rcases List.mem_cons.mp h with h' | h'
        · exact Or.inl h'
        · rcases ih true h' with h'' | h''
          · exact Or.inl h''
          · exact Or.inr ⟨List.mem_cons_of_mem a h''.1, h''.2⟩
    · have ha' : isSepChar a = false := by simpa using ha
      simp only [collapseSepsAux, ha'] at h
      rcases List.mem_cons.mp h with h' | h'
      · subst h'
        exact Or.inr ⟨List.mem_cons_self c rest, ha'⟩
      · rcases ih false h' with h'' | h''
        · exact Or.inl h''
        · exact Or.inr ⟨List.mem_cons_of_mem a h''.1, h''.2⟩

theorem headSep_collapseSepsAux_true (l : List Char) :
    headSep (collapseSepsAux true l) = false := by
  induction l with
  | nil => rfl
  | cons a rest ih =>
    by_cases ha : isSepChar a = true
    · simpa [collapseSepsAux, ha] using ih
    · have ha' : isSepChar a = false := by simpa using ha
      simp [collapseSepsAux, ha', headSep]

theorem noAdjSeps_collapseSepsAux (b : Bool) (l : List Char) :
    noAdjSeps (collapseSepsAux b l) = true := by
  induction l generalizing b with
  | nil => rfl
  | cons a rest ih =>
    by_cases ha : isSepChar a = true
    · cases b with
      | true => simpa [collapseSepsAux, ha] using ih true
      | false =>
        simp only [collapseSepsAux, ha, if_pos, if_false]
        have hhead := headSep_collapseSepsAux_true rest
        have htail := ih true
        cases hm : collapseSepsAux true rest with
        | nil => rfl
        | cons c2 m' =>
          rw [hm] at hhead htail
          simp only [headSep] at hhead
          simp [noAdjSeps, hhead, htail]
    · have ha' : isSepChar a = false := by simpa using ha
      simp only [collapseSepsAux, ha']
      have htail := ih false
      cases hm : collapseSepsAux false rest with
      | nil => rfl
      | cons c2 m' =>
        rw [hm] at htail
        simp [noAdjSeps, ha', htail]

theorem collapseSepsAux_eq_self (y : List Char) :
    ∀ b, noAdjSeps y = true → (∀ c ∈ y, isSepChar c = true → c = '-') →
      (b = true → headSep y = false) → collapseSepsAux b y = y := by
  induction y with
  | nil => intro b _ _ _; rfl
  | cons c rest ih =>
    intro b hadj hhyph hhead
    have hrest_adj : noAdjSeps rest = true := noAdjSeps_tail c rest hadj
    have hrest_hyph : ∀ a ∈ rest, isSepChar a = true → a = '-' :=
      fun a ha => hhyph a (List.mem_cons_of_mem c ha)
    cases b with
    | true =>
      have hc : isSepChar c = false := by simpa [headSep] using hhead rfl
      rw [show collapseSepsAux true (c :: rest) = c :: collapseSepsAux false rest from by
        simp [collapseSepsAux, hc]]
      rw [ih false hrest_adj hrest_hyph (by intro h; exact absurd h (by simp))]
    | false =>
      by_cases hc : isSepChar c = true
      · have hch : c = '-' := hhyph c (List.mem_cons_self c rest) hc
        have hrest_head : headSep rest = false := by
          cases rest with
          | nil => rfl
          | cons c2 m =>
            have h' : (!(isSepChar c && isSepChar c2) && noAdjSeps (c2 :: m)) = true := hadj
            rw [Bool.and_eq_true] at h'
            have := h'.1
            simp only [hc, Bool.true_and, Bool.not_eq_true', headSep] at this ⊢
            exact this
        rw [show collapseSepsAux false (c :: rest) = '-' :: collapseSepsAux true rest from by
          simp [collapseSepsAux, hc]]
        rw [ih true hrest_adj hrest_hyph (fun _ => hrest_head), hch]
      · have hc' : isSepChar c = false := by simpa using hc
        rw [show collapseSepsAux false (c :: rest) = c :: collapseSepsAux false rest from by
          simp [collapseSepsAux, hc']]
        rw [ih false hrest_adj hrest_hyph (by intro h; exact absurd h (by simp))]

end A11y

namespace A11y

/-! ## Trim and filter lemmas (support for claim C5) -/

theorem head?_dropWhile_not (p : Char → Bool) (l : List Char) (c : Char)
    (h : (l.dropWhile p).head? = some c) : p c = false := by
  induction l with
  | nil => simp [List.dropWhile] at h
  | cons a rest ih =>
    by_cases ha : p a
    · rw [List.dropWhile_cons, if_pos ha] at h
      exact ih h
    · rw [List.dropWhile_cons, if_neg ha] at h
      simp only [List.head?_cons, Option.some.injEq] at h
      subst h
      simpa using ha

theorem dropWhile_eq_self_of_head? (p : Char → Bool) (l : List Char)
    (h : ∀ c, l.head? = some c → p c = false) : l.dropWhile p = l := by
  cases l with
  | nil => rfl
  | cons a rest =>
    have := h a rfl
    rw [List.dropWhile_cons, if_neg (by simp [this])]

theorem mem_of_mem_dropWhile (p : Char → Bool) (l : List Char) (c : Char)
    (h : c ∈ l.dropWhile p) : c ∈ l :=
  (List.dropWhile_suffix p).subset h

theorem mem_trimHyphens (l : List Char) (c : Char) (h : c ∈ trimHyphens l) :
    c ∈ l := by
  unfold trimHyphens at h
  rw [List.mem_reverse] at h
  have h1 := mem_of_mem_dropWhile _ _ _ h
  rw [List.mem_reverse] at h1
  exact mem_of_mem_dropWhile _ _ _ h1

theorem trimHyphens_isPrefix_dropWhile (l : List Char) :
    trimHyphens l <+: l.dropWhile (fun c => c == '-') := by
  unfold trimHyphens
  have hsuf : (l.dropWhile (fun c => c == '-')).reverse.dropWhile (fun c => c == '-') <:+
      (l.dropWhile (fun c => c == '-')).reverse := List.dropWhile_suffix _
  have := List.reverse_prefix.mpr hsuf
  simpa using this

theorem trimHyphens_idem (l : List Char) :
    trimHyphens (trimHyphens l) = trimHyphens l := by
  set p := fun c : Char => c == '-' with hp
  have hfront : (trimHyphens l).dropWhile p = trimHyphens l := by
    apply dropWhile_eq_self_of_head?
    intro c hc
    obtain ⟨t, ht⟩ := trimHyphens_isPrefix_dropWhile l
    have hd : (l.dropWhile p).head? = some c := by
      rw [← ht]
      cases hy : trimHyphens l with
      | nil => rw [hy] at hc; simp at hc
      | cons c0 m =>
        rw [hy] at hc
        simp only [List.head?_cons, Option.some.injEq] at hc
        subst hc
        simp
    exact head?_dropWhile_not p l c hd
  have hback : (trimHyphens l).reverse.dropWhile p = (trimHyphens l).reverse := by
    show ((((l.dropWhile p).reverse.dropWhile p).reverse).reverse).dropWhile p =
      (((l.dropWhile p).reverse.dropWhile p).reverse).reverse
    rw [List.reverse_reverse, List.dropWhile_idempotent]
  show (((trimHyphens l).dropWhile p).reverse.dropWhile p).reverse = trimHyphens l
  rw [hfront, hback, List.reverse_reverse]

theorem stripDisallowed_eq_self (l : List Char)
    (h : ∀ c ∈ l, isAllowedChar c = true) : stripDisallowed l = l := by
  unfold stripDisallowed
  exact List.filter_eq_self.mpr h

theorem lowerL_eq_self (l : List Char) (h : ∀ c ∈ l, Char.toLower c = c) :
    lowerL l = l := by
  unfold lowerL
  induction l with
  | nil => rfl
  | cons a rest ih =>
    rw [List.map_cons, h a (List.mem_cons_self a rest),
      ih (fun c hc => h c (List.mem_cons_of_mem a hc))]

theorem noAdjSeps_append_right (xs ys : List Char)
    (h : noAdjSeps (xs ++ ys) = true) : noAdjSeps ys = true := by
  induction xs with
  | nil => simpa using h
  | cons a rest ih =>
    exact ih (noAdjSeps_tail a (rest ++ ys) h)

theorem noAdjSeps_append_left (xs ys : List Char)
    (h : noAdjSeps (xs ++ ys) = true) : noAdjSeps xs = true := by
  induction xs with
  | nil => rfl
  | cons a rest ih =>
    cases rest with
    | nil => rfl
    | cons a2 rest2 =>
      have h' : (!(isSepChar a && isSepChar a2) &&
          noAdjSeps (a2 :: (rest2 ++ ys))) = true := h
      rw [Bool.and_eq_true] at h'
      have htail : noAdjSeps (a2 :: rest2) = true := ih h'.2
      show (!(isSepChar a && isSepChar a2) && noAdjSeps (a2 :: rest2)) = true
      rw [Bool.and_eq_true]
      exact ⟨h'.1, htail⟩

theorem noAdjSeps_infix (xs l : List Char) (h : xs <:+: l)
    (hl : noAdjSeps l = true) : noAdjSeps xs = true := by
  obtain ⟨s, t, hst⟩ := h
  subst hst
  rw [List.append_assoc] at hl
  exact noAdjSeps_append_left xs t (noAdjSeps_append_right s (xs ++ t) hl)

theorem trimHyphens_isInfix (l : List Char) : trimHyphens l <:+: l := by
  obtain ⟨t, ht⟩ := trimHyphens_isPrefix_dropWhile l
  obtain ⟨s, hs⟩ := List.dropWhile_suffix (l := l) (fun c : Char => c == '-')
  exact ⟨s, t, by rw [List.append_assoc, ht, hs]⟩

end A11y

namespace A11y

theorem toLower_fixed_of_sep (c : Char) (h : isSepChar c = true) :
    c.toLower = c := by
  simp only [isSepChar, isJsWs, Bool.or_eq_true, beq_iff_eq] at h
  rcases h with ((((((h | h) | h) | h) | h) | h) | h) | h <;> subst h <;> decide

theorem trimHyphens_eq_nil (m : List Char) (h : ∀ c ∈ m, c = '-') :
    trimHyphens m = [] := by
  unfold trimHyphens
  have h1 : m.dropWhile (fun c => c == '-') = [] := by
    rw [List.dropWhile_eq_nil_iff]
    intro c hc
    simp [h c hc]
  rw [h1]
  rfl

/-! ## Claim C5 — normalizeLabel totality and (non-)idempotence -/

/-- C5 counterexample: `normalizeLabel` is NOT idempotent.  Stripping
happens after separator collapsing, so a stripped character standing
between two hyphens leaves a double hyphen that only a second pass
collapses: `"a-.-b"` normalizes to `"a--b"`, which normalizes to `"a-b"`. -/
theorem c5_normalize_not_idempotent_counterexample :
    normalizeLabel "a-.-b" = "a--b" ∧
    normalizeLabel (normalizeLabel "a-.-b") = "a-b" ∧
    normalizeLabel (normalizeLabel "a-.-b") ≠ normalizeLabel "a-.-b" := by
  refine ⟨by decide, by decide, by decide⟩

/-- C5 (amended): `normalizeLabel` is total (a Lean function); it maps
strings without any alphanumeric character (after lowercasing) to the
empty string; and it is idempotent on every string each of whose
characters either lowercases into `[a-z0-9-]` or is a separator
(whitespace, hyphen, underscore).  Idempotence for arbitrary strings
fails (see the counterexample). -/
theorem c5_normalize_amended :
    (∀ s : String,
      (∀ c ∈ s.data, isAllowedChar (Char.toLower c) = true ∨ isSepChar c = true) →
      normalizeLabel (normalizeLabel s) = normalizeLabel s) ∧
    (∀ s : String,
      (∀ c ∈ s.data, (Char.toLower c).isLower = false ∧ (Char.toLower c).isDigit = false) →
      normalizeLabel s = "") := by
  constructor
  · intro s h
    have hP : ∀ d ∈ lowerL s.data, isAllowedChar d = true ∨ isSepChar d = true := by
      intro d hd
      obtain ⟨c, hc, rfl⟩ := List.mem_map.mp hd
      rcases h c hc with h' | h'
      · exact Or.inl h'
      · right
        rw [toLower_fixed_of_sep c h']
        exact h'
    set y0 := collapseSeps (lowerL s.data) with hy0
    have hy0mem : ∀ d ∈ y0, isAllowedChar d = true := by
      intro d hd
      rcases mem_collapseSepsAux false (lowerL s.data) d hd with h' | h'
      · subst h'; decide
      · rcases hP d h'.1 with h'' | h''
        · exact h''
        · rw [h'.2] at h''
          exact absurd h'' (by simp)
    have hy0adj : noAdjSeps y0 = true := noAdjSeps_collapseSepsAux false _
    have hstrip0 : stripDisallowed y0 = y0 := stripDisallowed_eq_self y0 hy0mem
    have hnorm : normalizeLabelL s.data = trimHyphens y0 := by
      unfold normalizeLabelL
      rw [← hy0, hstrip0]
    set y := trimHyphens y0 with hy
    have hymem : ∀ d ∈ y, isAllowedChar d = true :=
      fun d hd => hy0mem d (mem_trimHyphens y0 d hd)
    have hyadj : noAdjSeps y = true :=
      noAdjSeps_infix y y0 (trimHyphens_isInfix y0) hy0adj
    have hyhyph : ∀ d ∈ y, isSepChar d = true → d = '-' :=
      fun d hd hs => sep_allowed_eq_hyphen d (hymem d hd) hs
    have hlower : lowerL y = y :=
      lowerL_eq_self y (fun d hd => toLower_fixed_of_allowed d (hymem d hd))
    have hcoll : collapseSeps y = y := by
      unfold collapseSeps
      exact collapseSepsAux_eq_self y false hyadj hyhyph (by intro h; exact absurd h (by simp))
    have hstrip : stripDisallowed y = y := stripDisallowed_eq_self y hymem
    have hyy : normalizeLabelL y = y := by
      unfold normalizeLabelL
      rw [hlower, hcoll, hstrip, hy, trimHyphens_idem]
    show String.mk (normalizeLabelL (String.mk (normalizeLabelL s.data)).data) =
      String.mk (normalizeLabelL s.data)
    rw [hnorm]
    show String.mk (normalizeLabelL y) = String.mk y
    rw [hyy]
  · intro s h
    have hall : ∀ d ∈ stripDisallowed (collapseSeps (lowerL s.data)), d = '-' := by
      intro d hd
      rw [stripDisallowed, List.mem_filter] at hd
      rcases mem_collapseSepsAux false (lowerL s.data) d hd.1 with h' | h'
      · exact h'
      · obtain ⟨c, hc, rfl⟩ := List.mem_map.mp h'.1
        have hc' := h c hc
        have hda := hd.2
        simp only [isAllowedChar, hc'.1, hc'.2, Bool.false_or, Bool.or_eq_true,
          beq_iff_eq] at hda
        rw [hda] at h'
        exact absurd (by decide : isSepChar '-' = true) (by simp [h'.2])
    show String.mk (normalizeLabelL s.data) = ""
    unfold normalizeLabelL
    rw [trimHyphens_eq_nil _ hall]

/-- Witness for the amended C5 at concrete inputs: `" Full_Name-42 "`
satisfies the character-class hypothesis and normalizes idempotently;
`"!!!"` has no alphanumeric character and normalizes to the empty string. -/
theorem c5_normalize_amended_witness :
    normalizeLabel (normalizeLabel " Full_Name-42 ") = normalizeLabel " Full_Name-42 " ∧
    normalizeLabel "!!!" = "" := by
  constructor
  · exact c5_normalize_amended.1 " Full_Name-42 " (by decide)
  · exact c5_normalize_amended.2 "!!!" (by decide)

end A11y

namespace A11y

/-! ## Claim C3 — retention filter of the scan -/

/-- C3 counterexample: a candidate field labelled `"Fax"` classifies as
phone (not unsupported) and is marked required by the host, yet the scan
does not retain it: the relevance keyword pre-filter of lines 3106-3126
drops it before classification, because no keyword of that list occurs in
`"fax"`.  Hence retention is not equivalent to "classified type not
unsupported and required". -/
theorem c3_retention_counterexample :
    classifyStr "Fax" = FieldType.phone ∧
    classifyStr "Fax" ≠ FieldType.unsupported ∧
    resolveScanRequired (RequiredProbe.returns true) = true ∧
    retainField "Fax" (RequiredProbe.returns true) = false := by
  refine ⟨by decide, by decide, rfl, by decide⟩

/-- C3 (amended): a candidate field is retained in the form's field list
iff (a) its label passes the relevance keyword pre-filter, (b) its
classified type is not unsupported, and (c) the host's native required
flag holds (defaulting to true when `getRequired` is absent or throws).
The three-way disjunction (native flag / `aria-required="true"` / prior
tool marker) claimed for required-ness lives in the separate
`checkFieldRequirement` used by the error-messaging flow, and that check
is in fact five-way: it additionally treats an email-typed field and a
field marked `data-needs-error-container` as required. -/
theorem c3_retention_amended :
    (∀ (label : String) (p : RequiredProbe),
      retainField label p = true ↔
        (isRelevantLabel label = true ∧ classifyStr label ≠ FieldType.unsupported ∧
         resolveScanRequired p = true)) ∧
    checkFieldRequirementB none none none none (some "email") = true ∧
    checkFieldRequirementB none none none (some "true") none = true ∧
    checkFieldRequirementB none (some "true") none none none = true := by
  refine ⟨?_, by decide, by decide, by decide⟩
  intro label p
  unfold retainField
  by_cases h1 : isRelevantLabel label = true
  · by_cases h2 : classifyStr label = FieldType.unsupported <;> simp [h1, h2]
  · simp [h1]

/-! ## Claim C10 — unreadable required status defaults to true -/

/-- C10: during the scan, a candidate field whose required status cannot
be read from the host (the `getRequired` method is absent or throws) is
treated as required — `isRequired` is initialized to `true` at line 3130
and neither the absent-method path nor the empty catch block overwrites
it — and such a field (passing the other filters) is therefore included
in the form's field list. -/
theorem c10_unreadable_required_defaults_true :
    (∀ p : RequiredProbe,
      p = RequiredProbe.absent ∨ p = RequiredProbe.throws →
      resolveScanRequired p = true) ∧
    (∀ (label : String) (p : RequiredProbe),
      (p = RequiredProbe.absent ∨ p = RequiredProbe.throws) →
      isRelevantLabel label = true → classifyStr label ≠ FieldType.unsupported →
      retainField label p = true) := by
  constructor
  · rintro p (rfl | rfl) <;> rfl
  · rintro label p hp h1 h2
    have hr : resolveScanRequired p = true := by rcases hp with rfl | rfl <;> rfl
    unfold retainField
    simp [h1, h2, hr]

/-- Witness for C10: a field labelled `"Email"` whose host `getRequired`
probe is absent is retained. -/
theorem c10_unreadable_required_witness :
    retainField "Email" RequiredProbe.absent = true :=
  c10_unreadable_required_defaults_true.2 "Email" RequiredProbe.absent
    (Or.inl rfl) (by decide) (by decide)

end A11y

namespace A11y

/-! ## Claim C8 — the phone rules are not one canonical predicate -/

/-- C8 counterexample: the phone rule written at annotation time (the
`pattern` attribute `[0-9\s\-\(\)\+]{10,}` of src/index.js line 5299)
accepts `"0000000000"`, while the standalone client runtime
(src/unnamed/part_000 lines 176-184, regex `^[\+]?[1-9][\d]{0,15}$` after
stripping separators) rejects it: the two rules do not accept the same
set of values. -/
theorem c8_phone_rule_counterexample :
    appliedPhonePatternOk "0000000000" = true ∧
    standalonePhoneOk "0000000000" = false := by
  exact ⟨by decide, by decide⟩

/-- C8 (amended): the annotation-time `pattern` attribute and the phone
rule of the embedded runtime (src/unnamed/part_001 line 1039) accept
exactly the same set of values — character for character the same regex —
but the standalone runtime (src/unnamed/part_000) enforces a materially
different rule, which disagrees with both on concrete inputs such as
`"0000000000"`; no single canonical phone predicate is applied uniformly. -/
theorem c8_phone_rule_amended :
    (∀ s : String, appliedPhonePatternOk s = embeddedPhoneRegexOk s) ∧
    ¬(∀ s : String, appliedPhonePatternOk s = standalonePhoneOk s) := by
  constructor
  · intro s
    rfl
  · intro h
    have h0 := h "0000000000"
    have h1 : appliedPhonePatternOk "0000000000" = true := by decide
    have h2 : standalonePhoneOk "0000000000" = false := by decide
    rw [h1, h2] at h0
    exact Bool.noConfusion h0

end A11y

namespace A11y

/-! ## Lemmas on the next-form search (support for claim C1) -/

theorem findFormOff_some (l : List PElem) (k : Nat)
    (h : findFormOff l = some k) :
    (∃ e, l.get? k = some e ∧ e.etype = "FormForm") ∧
    (∀ j e, j < k → l.get? j = some e → e.etype ≠ "FormForm") := by
  induction l generalizing k with
  | nil => simp [findFormOff] at h
  | cons a rest ih =>
    by_cases ha : a.etype == "FormForm"
    · rw [findFormOff, if_pos ha] at h
      obtain rfl : (0 : Nat) = k := by simpa using h
      refine ⟨⟨a, rfl, by simpa using ha⟩, ?_⟩
      intro j e hj
      omega
    · rw [findFormOff, if_neg ha] at h
      cases hr : findFormOff rest with
      | none => rw [hr] at h; simp at h
      | some k' =>
        rw [hr] at h
        simp only [Option.map_some', Option.some.injEq] at h
        subst h
        obtain ⟨⟨e, hge, hfe⟩, hlt⟩ := ih k' hr
        refine ⟨⟨e, by simpa using hge, hfe⟩, ?_⟩
        intro j e' hj hg
        cases j with
        | zero =>
          simp only [List.get?_cons_zero, Option.some.injEq] at hg
          subst hg
          intro hc
          apply ha
          simp [hc]
        | succ j' =>
          simp only [List.get?_cons_succ] at hg
          exact hlt j' e' (by omega) hg

theorem findFormOff_none (l : List PElem)
    (h : findFormOff l = none) :
    ∀ j e, l.get? j = some e → e.etype ≠ "FormForm" := by
  induction l with
  | nil => intro j e hg; simp at hg
  | cons a rest ih =>
    by_cases ha : a.etype == "FormForm"
    · rw [findFormOff, if_pos ha] at h; simp at h
    · rw [findFormOff, if_neg ha] at h
      cases hr : findFormOff rest with
      | some k' => rw [hr] at h; simp at h
      | none =>
        intro j e hg
        cases j with
        | zero =>
          simp only [List.get?_cons_zero, Option.some.injEq] at hg
          subst hg
          intro hc
          apply ha
          simp [hc]
        | succ j' =>
          simp only [List.get?_cons_succ] at hg
          exact ih hr j' e hg

theorem positionalBelongs_iff (els : List PElem) (formId fieldIdx fi : Nat)
    (hfi : els.findIdx? (fun e => e.eid == formId) = some fi) :
    positionalBelongs els formId fieldIdx = true ↔
      (fi < fieldIdx ∧
       ∀ j e, fi < j → j ≤ fieldIdx → els.get? j = some e →
         e.etype ≠ "FormForm") := by
  cases hn : nextFormIdx els fi with
  | none =>
    have heq : positionalBelongs els formId fieldIdx = decide (fi < fieldIdx) := by
      unfold positionalBelongs
      rw [hfi]
      show (decide (fi < fieldIdx) &&
        match nextFormIdx els fi with
        | none => true
        | some n => decide (fieldIdx < n)) = decide (fi < fieldIdx)
      rw [hn]
      simp
    have hnone : findFormOff (els.drop (fi + 1)) = none := by
      unfold nextFormIdx at hn
      cases hx : findFormOff (els.drop (fi + 1)) with
      | none => rfl
      | some k => rw [hx] at hn; simp at hn
    rw [heq]
    simp only [decide_eq_true_eq]
    constructor
    · intro hlt
      refine ⟨hlt, ?_⟩
      intro j e hj hji hg
      have : (els.drop (fi + 1)).get? (j - (fi + 1)) = some e := by
        rw [List.get?_drop]
        rwa [show fi + 1 + (j - (fi + 1)) = j by omega]
      exact findFormOff_none _ hnone _ e this
    · rintro ⟨hlt, -⟩
      exact hlt
  | some n =>
    have heq : positionalBelongs els formId fieldIdx =
        (decide (fi < fieldIdx) && decide (fieldIdx < n)) := by
      unfold positionalBelongs
      rw [hfi]
      show (decide (fi < fieldIdx) &&
        match nextFormIdx els fi with
        | none => true
        | some n => decide (fieldIdx < n)) =
        (decide (fi < fieldIdx) && decide (fieldIdx < n))
      rw [hn]
    obtain ⟨k, hk, rfl⟩ : ∃ k, findFormOff (els.drop (fi + 1)) = some k ∧ fi + 1 + k = n := by
      unfold nextFormIdx at hn
      cases hx : findFormOff (els.drop (fi + 1)) with
      | none => rw [hx] at hn; simp at hn
      | some k =>
        rw [hx] at hn
        simp only [Option.map_some', Option.some.injEq] at hn
        exact ⟨k, rfl, hn⟩
    obtain ⟨⟨en, hgen, hfen⟩, hbefore⟩ := findFormOff_some _ _ hk
    rw [List.get?_drop] at hgen
    rw [heq]
    simp only [Bool.and_eq_true, decide_eq_true_eq]
    constructor
    · rintro ⟨hlt, hfld⟩
      refine ⟨hlt, ?_⟩
      intro j e hj hji hg
      have hjn : j < fi + 1 + k := by omega
      have : (els.drop (fi + 1)).get? (j - (fi + 1)) = some e := by
        rw [List.get?_drop]
        rwa [show fi + 1 + (j - (fi + 1)) = j by omega]
      exact hbefore _ e (by omega) this
    · rintro ⟨hlt, hnoform⟩
      refine ⟨hlt, ?_⟩
      by_contra hc
      have hn_le : fi + 1 + k ≤ fieldIdx := by omega
      exact hnoform (fi + 1 + k) en (by omega) hn_le hgen hfen

/-! ## Claim C1 — positional fallback assigns a field to exactly one form -/

/-- C1: for a field with no structural containment, the positional
fallback (src/index.js lines 3081-3102) assigns it to a form exactly when
the field appears strictly after that form and strictly before the next
`FormForm` entry in the flattened element snapshot; consequently a field
lying between two sibling forms belongs to the preceding form, never the
following one, and never to both. -/
theorem c1_positional_fallback (els : List PElem) (fid1 fid2 fieldIdx i1 i2 : Nat)
    (h1 : els.findIdx? (fun e => e.eid == fid1) = some i1)
    (h2 : els.findIdx? (fun e => e.eid == fid2) = some i2)
    (e1 e2 : PElem)
    (hg1 : els.get? i1 = some e1) (hf1 : e1.etype = "FormForm")
    (hg2 : els.get? i2 = some e2) (hf2 : e2.etype = "FormForm")
    (hne : i1 ≠ i2) :
    (positionalBelongs els fid1 fieldIdx = true ↔
      (i1 < fieldIdx ∧
       ∀ j e, i1 < j → j ≤ fieldIdx → els.get? j = some e →
         e.etype ≠ "FormForm")) ∧
    ¬(positionalBelongs els fid1 fieldIdx = true ∧
      positionalBelongs els fid2 fieldIdx = true) := by
  refine ⟨positionalBelongs_iff els fid1 fieldIdx i1 h1, ?_⟩
  rintro ⟨hb1, hb2⟩
  rw [positionalBelongs_iff els fid1 fieldIdx i1 h1] at hb1
  rw [positionalBelongs_iff els fid2 fieldIdx i2 h2] at hb2
  rcases Nat.lt_or_ge i1 i2 with hlt | hge
  · exact hb1.2 i2 e2 hlt (by omega) hg2 hf2
  · have hlt2 : i2 < i1 := by omega
    exact hb2.2 i1 e1 hlt2 (by omega) hg1 hf1

/-- Witness for C1: three flattened elements — a form (id 1), a text
field between the forms (index 1), a second form (id 3).  The fallback
assigns the field to the preceding form and not the following one. -/
theorem c1_positional_fallback_witness :
    positionalBelongs
      [PElem.mk 1 "FormForm", PElem.mk 2 "FormTextInput", PElem.mk 3 "FormForm"] 1 1 = true ∧
    positionalBelongs
      [PElem.mk 1 "FormForm", PElem.mk 2 "FormTextInput", PElem.mk 3 "FormForm"] 3 1 = false := by
  constructor
  · apply (c1_positional_fallback
      [PElem.mk 1 "FormForm", PElem.mk 2 "FormTextInput", PElem.mk 3 "FormForm"]
      1 3 1 0 2 (by decide) (by decide)
      (PElem.mk 1 "FormForm") (PElem.mk 3 "FormForm")
      (by decide) rfl (by decide) rfl (by omega)).1.mpr
    refine ⟨by omega, ?_⟩
    intro j e hj hji hg
    have hj1 : j = 1 := by omega
    subst hj1
    simp only [List.get?_cons_succ, List.get?_cons_zero, Option.some.injEq] at hg
    subst hg
    decide
  · decide

end A11y

namespace A11y

/-- Key-membership in a write list. -/
def hasKeyW (ws : List (String × String)) (k : String) : Bool :=
  ws.any (fun kv => kv.1 == k)

/-! ## Claim C6 — required marking sets exactly one attribute -/

/-- C6: for a field with `field.required` true (and the required rule
enabled), the apply path writes exactly one of `required="required"`
(non-custom-widget nodes) or `aria-required="true"` (custom-widget nodes,
as decided by `isCustomWidgetElement`), and never both: the `required`
key is written iff the widget predicate is false, and the `aria-required`
key is written iff it is true (src/index.js lines 5266-5273). -/
theorem c6_required_marking_exclusive (f : RField) (s : Rules) (cw : Bool)
    (hr : RequiredProbe) (tattr : Option String)
    (hreq : f.required = true) (hrule : s.required = true) :
    hasKeyW (fieldWrites f s cw hr tattr) "required" = !cw ∧
    hasKeyW (fieldWrites f s cw hr tattr) "aria-required" = cw := by
  have hres : resolveApplyRequired f.required hr tattr = true := by
    simp [resolveApplyRequired, hreq]
  by_cases hE :
    (f.ftype == "FormTextInput" && s.email && likelyEmailStr (applyFieldLabel f)) = true <;>
  by_cases hP :
    (f.ftype == "FormTextInput" && s.phone && likelyPhoneStr (applyFieldLabel f)) = true <;>
  by_cases hU :
    (f.ftype == "FormTextInput" && s.url && likelyUrlStr (applyFieldLabel f)) = true <;>
  cases hac : getAutocompleteValue (applyFieldLabel f) f.ftype <;>
  cases cw <;>
    simp [fieldWrites, fieldWritesCore, hasKeyW, errWiringWrites, hrule, hres,
      hE, hP, hU, hac]

/-- Witness for C6 at a concrete required phone field: the non-widget
node receives `required` and not `aria-required`; the custom-widget node
receives `aria-required` and not `required`. -/
theorem c6_required_marking_witness :
    (hasKeyW (fieldWrites (RField.mk "Phone" "phone-f" "FormTextInput" true)
        (Rules.mk true true true true) false RequiredProbe.absent none) "required" = true ∧
     hasKeyW (fieldWrites (RField.mk "Phone" "phone-f" "FormTextInput" true)
        (Rules.mk true true true true) false RequiredProbe.absent none) "aria-required" = false) ∧
    (hasKeyW (fieldWrites (RField.mk "Phone" "phone-f" "FormTextInput" true)
        (Rules.mk true true true true) true RequiredProbe.absent none) "required" = false ∧
     hasKeyW (fieldWrites (RField.mk "Phone" "phone-f" "FormTextInput" true)
        (Rules.mk true true true true) true RequiredProbe.absent none) "aria-required" = true) := by
  constructor
  · have h := c6_required_marking_exclusive (RField.mk "Phone" "phone-f" "FormTextInput" true)
      (Rules.mk true true true true) false RequiredProbe.absent none rfl rfl
    exact ⟨by simpa using h.1, by simpa using h.2⟩
  · have h := c6_required_marking_exclusive (RField.mk "Phone" "phone-f" "FormTextInput" true)
      (Rules.mk true true true true) true RequiredProbe.absent none rfl rfl
    exact ⟨by simpa using h.1, by simpa using h.2⟩

/-! ## Claim C7 — what remove actually deletes -/

/-- C7 counterexample: `remove` is not exactly the fixed key list and is
not a no-op on a never-annotated node.  A node carrying only the
user-authored attribute `data-custom-error="x"` — a key the engine never
writes and which is absent from `starterPlanAttributes` — is stripped to
nothing by `cleanupExistingValidation`, because the future-proof sweep
(src/index.js lines 4830-4851) removes every `data-*` attribute whose
name contains a keyword such as `error`. -/
theorem c7_remove_counterexample :
    cleanupValidationAttrs [("data-custom-error", "x")] = [] ∧
    starterPlanAttributes.contains "data-custom-error" = false ∧
    cleanupValidationAttrs [("data-custom-error", "x")] ≠ [("data-custom-error", "x")] := by
  exact ⟨by decide, by decide, by decide⟩

/-- C7 (amended): `remove` deletes exactly the fixed Starter-plan key
list PLUS every `data-*` attribute whose lowercased name contains one of
the keywords error/a11y/validator/validation/required/aria/embed (and
does not contain length/min/max); every annotation key the apply path can
write is among the removed names, so no engine-written annotation
survives; on a node carrying no removable attribute the call is a no-op;
and the modelled transformer is total, mirroring the per-attribute
try/catch that swallows every removal error. -/
theorem c7_remove_amended :
    (∀ (st : AttrState) (k : String),
      getAttr (cleanupValidationAttrs st) k =
        if cleanupRemoves k = true then none else getAttr st k) ∧
    annotationKeys.all cleanupRemoves = true ∧
    (∀ st : AttrState, (∀ kv ∈ st, cleanupRemoves kv.1 = false) →
      cleanupValidationAttrs st = st) := by
  refine ⟨getAttr_cleanup, by decide, cleanup_noop⟩

/-- Witness for the amended C7: a node with the single non-removable
attribute `data-unrelated="x"` passes through remove untouched. -/
theorem c7_remove_amended_witness :
    cleanupValidationAttrs [("data-unrelated", "x")] = [("data-unrelated", "x")] :=
  c7_remove_amended.2.2 [("data-unrelated", "x")] (by
    intro kv hkv
    rw [List.mem_singleton] at hkv
    rw [hkv]
    decide)

end A11y

namespace A11y

/-! ## Support lemmas for claims C2 and C9 -/

theorem hasSentinel_eq_isSome (st : AttrState) :
    hasSentinel st = (getAttr st "data-a11y-validator").isSome := by
  induction st with
  | nil => rfl
  | cons kv rest ih =>
    obtain ⟨a, b⟩ := kv
    by_cases ha : a = "data-a11y-validator"
    · simp [hasSentinel, getAttr_cons, ha]
    · simp only [hasSentinel, List.any_cons]
      rw [getAttr_cons, if_neg ha]
      simp only [show (a == "data-a11y-validator") = false by simpa using ha,
        Bool.false_or]
      exact ih

theorem resolveApplyRequired_none_true (fr : Bool) (hr : RequiredProbe)
    (h : resolveApplyRequired fr hr none = true) (t : Option String) :
    resolveApplyRequired fr hr t = true := by
  cases fr with
  | true => rfl
  | false =>
    cases hr with
    | absent => simp [resolveApplyRequired] at h
    | throws => simp [resolveApplyRequired] at h
    | returns b =>
      simp only [resolveApplyRequired, Bool.false_eq_true, if_false] at h ⊢
      simp at h
      simp [h]

theorem lastAssoc_fieldWritesCore_required (f : RField) (s : Rules) (cw : Bool)
    (r : Bool) :
    lastAssoc (fieldWritesCore f s cw r) "required" =
      if s.required && r && !cw then some "required" else none := by
  by_cases hE :
    (f.ftype == "FormTextInput" && s.email && likelyEmailStr (applyFieldLabel f)) = true <;>
  by_cases hP :
    (f.ftype == "FormTextInput" && s.phone && likelyPhoneStr (applyFieldLabel f)) = true <;>
  by_cases hU :
    (f.ftype == "FormTextInput" && s.url && likelyUrlStr (applyFieldLabel f)) = true <;>
  cases hac : getAutocompleteValue (applyFieldLabel f) f.ftype <;>
  cases cw <;> cases hsr : s.required <;> cases r <;>
    simp [fieldWritesCore, errWiringWrites, lastAssoc, hE, hP, hU, hac, hsr]

theorem lastAssoc_formWrites (ts k : String) :
    lastAssoc (formWrites ts) k =
      if k = "data-a11y-timestamp" then some ts
      else if k = "data-a11y-validator" then some "enabled"
      else if k = "novalidate" then some "novalidate"
      else none := by
  by_cases h1 : k = "data-a11y-timestamp" <;>
  by_cases h2 : k = "data-a11y-validator" <;>
  by_cases h3 : k = "novalidate" <;>
    simp_all [formWrites, lastAssoc, eq_comm]

end A11y

namespace A11y

/-! ## Claim C2 — apply / remove / apply versus a single apply -/

/-- C2 counterexample: on a field node carrying a stale annotation
(`pattern="stale"`) but no sentinel — the code never writes the sentinel
onto field nodes, and `applyValidationToForm` sentinel-checks and cleans
only the form element (src/index.js lines 4131-4144) — a single apply for
a plain field leaves the stale `pattern` in place, while
apply-remove-apply deletes it: the resulting annotation attribute sets
differ at the annotation key `pattern`. -/
theorem c2_update_cycle_counterexample :
    getAttr (applyValidationPipeline (RField.mk "Name" "name-f" "FormTextInput" true)
      (Rules.mk true true true true) false RequiredProbe.absent "T"
      ([], [("pattern", "stale")])).2 "pattern" = some "stale" ∧
    getAttr (applyValidationPipeline (RField.mk "Name" "name-f" "FormTextInput" true)
      (Rules.mk true true true true) false RequiredProbe.absent "T"
      (removeValidationPipeline
        (applyValidationPipeline (RField.mk "Name" "name-f" "FormTextInput" true)
          (Rules.mk true true true true) false RequiredProbe.absent "T"
          ([], [("pattern", "stale")])))).2 "pattern" = none := by
  exact ⟨by decide, by decide⟩

/-- C2 (amended): apply-remove-apply with the same inputs (including the
same timestamp) produces the same attribute state as a single apply, on
both the form node and the field node and at every key, PROVIDED the
field node starts with no attribute that remove would delete and the form
node starts either bearing the sentinel or with no removable attribute.
The sentinel-triggered cleanup guarantees the no-accumulation behaviour
on the form node only; field nodes rely on the writes overwriting the
same fixed keys, which fails on stale residue (see the counterexample). -/
theorem c2_update_cycle_amended (f : RField) (s : Rules) (cw : Bool)
    (hr : RequiredProbe) (ts : String) (F0 D0 : AttrState)
    (hD : ∀ k, cleanupRemoves k = true → getAttr D0 k = none)
    (hF : hasSentinel F0 = true ∨
      (∀ k, cleanupRemoves k = true → getAttr F0 k = none)) :
    (∀ k, getAttr (applyValidationPipeline f s cw hr ts
        (removeValidationPipeline
          (applyValidationPipeline f s cw hr ts (F0, D0)))).1 k =
      getAttr (applyValidationPipeline f s cw hr ts (F0, D0)).1 k) ∧
    (∀ k, getAttr (applyValidationPipeline f s cw hr ts
        (removeValidationPipeline
          (applyValidationPipeline f s cw hr ts (F0, D0)))).2 k =
      getAttr (applyValidationPipeline f s cw hr ts (F0, D0)).2 k) := by
  have hreq_rm : cleanupRemoves "required" = true := by decide
  have hsent_rm : cleanupRemoves "data-a11y-validator" = true := by decide
  constructor
  · -- form node
    intro k
    have e1 : (applyValidationPipeline f s cw hr ts (F0, D0)).1 =
        setAll (formWrites ts)
          (if hasSentinel F0 then cleanupValidationAttrs F0 else F0) := rfl
    have e2 : (applyValidationPipeline f s cw hr ts
        (removeValidationPipeline
          (applyValidationPipeline f s cw hr ts (F0, D0)))).1 =
        setAll (formWrites ts)
          (if hasSentinel (cleanupValidationAttrs
              (applyValidationPipeline f s cw hr ts (F0, D0)).1) then
            cleanupValidationAttrs (cleanupValidationAttrs
              (applyValidationPipeline f s cw hr ts (F0, D0)).1)
          else cleanupValidationAttrs
            (applyValidationPipeline f s cw hr ts (F0, D0)).1) := rfl
    have hs2 : hasSentinel (cleanupValidationAttrs
        (applyValidationPipeline f s cw hr ts (F0, D0)).1) = false := by
      rw [hasSentinel_eq_isSome, getAttr_cleanup, if_pos hsent_rm]
      rfl
    rw [e2, hs2, e1]
    rw [if_neg (by simp)]
    rw [getAttr_setAll, getAttr_setAll]
    cases hw : lastAssoc (formWrites ts) k with
    | some v => rfl
    | none =>
      show getAttr (cleanupValidationAttrs (setAll (formWrites ts)
          (if hasSentinel F0 then cleanupValidationAttrs F0 else F0))) k =
        getAttr (if hasSentinel F0 then cleanupValidationAttrs F0 else F0) k
      rw [getAttr_cleanup]
      by_cases hrm : cleanupRemoves k = true
      · rw [if_pos hrm]
        rcases hF with hs | hclean
        · rw [hs]
          rw [if_pos rfl, getAttr_cleanup, if_pos hrm]
        · have hs0 : hasSentinel F0 = false := by
            rw [hasSentinel_eq_isSome, hclean _ hsent_rm]
            rfl
          rw [hs0, if_neg (by simp)]
          exact (hclean k hrm).symm
      · rw [if_neg hrm, getAttr_setAll, hw]
  · -- field node
    intro k
    have h0 : getAttr D0 "required" = none := hD _ hreq_rm
    have e1 : (applyValidationPipeline f s cw hr ts (F0, D0)).2 =
        setAll (fieldWrites f s cw hr (getAttr D0 "required")) D0 := rfl
    have e2 : (applyValidationPipeline f s cw hr ts
        (removeValidationPipeline
          (applyValidationPipeline f s cw hr ts (F0, D0)))).2 =
        setAll (fieldWrites f s cw hr
          (getAttr (cleanupValidationAttrs
            (applyValidationPipeline f s cw hr ts (F0, D0)).2) "required"))
          (cleanupValidationAttrs
            (applyValidationPipeline f s cw hr ts (F0, D0)).2) := rfl
    have h2 : getAttr (cleanupValidationAttrs
        (applyValidationPipeline f s cw hr ts (F0, D0)).2) "required" = none := by
      rw [getAttr_cleanup, if_pos hreq_rm]
    rw [e2, h2, e1, h0]
    rw [getAttr_setAll, getAttr_setAll]
    cases hw : lastAssoc (fieldWrites f s cw hr none) k with
    | some v => rfl
    | none =>
      show getAttr (cleanupValidationAttrs
          (setAll (fieldWrites f s cw hr none) D0)) k = getAttr D0 k
      rw [getAttr_cleanup]
      by_cases hrm : cleanupRemoves k = true
      · rw [if_pos hrm, hD k hrm]
      · rw [if_neg hrm, getAttr_setAll, hw]

/-- Witness for the amended C2: on fresh (empty) form and field nodes and
a concrete required plain field, apply-remove-apply agrees with a single
apply at the representative keys `pattern` (field node) and `novalidate`
(form node). -/
theorem c2_update_cycle_amended_witness :
    getAttr (applyValidationPipeline (RField.mk "Name" "name-f" "FormTextInput" true)
      (Rules.mk true true true true) false RequiredProbe.absent "T"
      (removeValidationPipeline
        (applyValidationPipeline (RField.mk "Name" "name-f" "FormTextInput" true)
          (Rules.mk true true true true) false RequiredProbe.absent "T"
          ([], [])))).2 "pattern" =
    getAttr (applyValidationPipeline (RField.mk "Name" "name-f" "FormTextInput" true)
      (Rules.mk true true true true) false RequiredProbe.absent "T"
      ([], [])).2 "pattern" :=
  (c2_update_cycle_amended (RField.mk "Name" "name-f" "FormTextInput" true)
    (Rules.mk true true true true) false RequiredProbe.absent "T" [] []
    (fun _ _ => rfl) (Or.inr (fun _ _ => rfl))).2 "pattern"

end A11y

namespace A11y

/-! ## Claim C9 — apply is not byte-identical across runs -/

/-- C9 counterexample: the form-level writes include
`data-a11y-timestamp = new Date().toLocaleString()` (src/index.js line
4181), a wall-clock value.  Two consecutive apply calls with identical
`(field, ruleConfig)` on a freshly-removed node, made at clock readings
`"t1"` and `"t2"`, produce attribute sets that differ at
`data-a11y-timestamp`; the output is not byte-identical across runs. -/
theorem c9_determinism_counterexample :
    getAttr (applyValidationPipeline (RField.mk "Name" "name-f" "FormTextInput" true)
      (Rules.mk true true true true) false RequiredProbe.absent "t1"
      ([], [])).1 "data-a11y-timestamp" = some "t1" ∧
    getAttr (applyValidationPipeline (RField.mk "Name" "name-f" "FormTextInput" true)
      (Rules.mk true true true true) false RequiredProbe.absent "t2"
      (applyValidationPipeline (RField.mk "Name" "name-f" "FormTextInput" true)
        (Rules.mk true true true true) false RequiredProbe.absent "t1"
        ([], []))).1 "data-a11y-timestamp" = some "t2" ∧
    (some "t1" : Option String) ≠ some "t2" := by
  exact ⟨by decide, by decide, by decide⟩

/-- C9 (amended): two consecutive apply calls with identical
`(field, ruleConfig)` on a freshly-removed pair of nodes agree on every
written attribute key and value EXCEPT `data-a11y-timestamp`, whose value
is the wall-clock reading of the call; the field node's attributes agree
at every key. -/
theorem c9_determinism_amended (f : RField) (s : Rules) (cw : Bool)
    (hr : RequiredProbe) (ts1 ts2 : String) (F0 D0 : AttrState)
    (hF : ∀ k, cleanupRemoves k = true → getAttr F0 k = none)
    (hD : ∀ k, cleanupRemoves k = true → getAttr D0 k = none) :
    (∀ k, k ≠ "data-a11y-timestamp" →
      getAttr (applyValidationPipeline f s cw hr ts2
        (applyValidationPipeline f s cw hr ts1 (F0, D0))).1 k =
      getAttr (applyValidationPipeline f s cw hr ts1 (F0, D0)).1 k) ∧
    (∀ k, getAttr (applyValidationPipeline f s cw hr ts2
        (applyValidationPipeline f s cw hr ts1 (F0, D0))).2 k =
      getAttr (applyValidationPipeline f s cw hr ts1 (F0, D0)).2 k) := by
  have hsent_rm : cleanupRemoves "data-a11y-validator" = true := by decide
  have hreq_rm : cleanupRemoves "required" = true := by decide
  have hs0 : hasSentinel F0 = false := by
    rw [hasSentinel_eq_isSome, hF _ hsent_rm]
    rfl
  have e1f : (applyValidationPipeline f s cw hr ts1 (F0, D0)).1 =
      setAll (formWrites ts1) F0 := by
    show setAll (formWrites ts1)
      (if hasSentinel F0 then cleanupValidationAttrs F0 else F0) = _
    rw [hs0, if_neg (by simp)]
  have h0 : getAttr D0 "required" = none := hD _ hreq_rm
  have e1d : (applyValidationPipeline f s cw hr ts1 (F0, D0)).2 =
      setAll (fieldWritesCore f s cw (resolveApplyRequired f.required hr none)) D0 := by
    show setAll (fieldWrites f s cw hr (getAttr D0 "required")) D0 = _
    rw [h0]
    rfl
  constructor
  · -- form node
    intro k hk
    have hsent1 : hasSentinel (setAll (formWrites ts1) F0) = true := by
      rw [hasSentinel_eq_isSome, getAttr_setAll, lastAssoc_formWrites]
      simp
    have e2f : (applyValidationPipeline f s cw hr ts2
        (applyValidationPipeline f s cw hr ts1 (F0, D0))).1 =
        setAll (formWrites ts2)
          (cleanupValidationAttrs (setAll (formWrites ts1) F0)) := by
      show setAll (formWrites ts2)
        (if hasSentinel (applyValidationPipeline f s cw hr ts1 (F0, D0)).1 then
          cleanupValidationAttrs (applyValidationPipeline f s cw hr ts1 (F0, D0)).1
        else (applyValidationPipeline f s cw hr ts1 (F0, D0)).1) = _
      rw [e1f, hsent1, if_pos rfl]
    rw [e2f, e1f, getAttr_setAll, getAttr_setAll, lastAssoc_formWrites,
      lastAssoc_formWrites, if_neg hk, if_neg hk]
    by_cases hk2 : k = "data-a11y-validator"
    · rw [if_pos hk2]
    · rw [if_neg hk2]
      by_cases hk3 : k = "novalidate"
      · rw [if_pos hk3]
      · rw [if_neg hk3]
        show getAttr (cleanupValidationAttrs (setAll (formWrites ts1) F0)) k =
          getAttr F0 k
        rw [getAttr_cleanup]
        by_cases hrm : cleanupRemoves k = true
        · rw [if_pos hrm, hF k hrm]
        · rw [if_neg hrm, getAttr_setAll, lastAssoc_formWrites, if_neg hk,
            if_neg hk2, if_neg hk3]
  · -- field node
    intro k
    have htat2 : getAttr (setAll (fieldWritesCore f s cw
        (resolveApplyRequired f.required hr none)) D0) "required" =
        (if s.required && resolveApplyRequired f.required hr none && !cw then
          some "required" else none) := by
      rw [getAttr_setAll, lastAssoc_fieldWritesCore_required]
      by_cases hc :
        (s.required && resolveApplyRequired f.required hr none && !cw) = true
      · rw [if_pos hc]
      · rw [if_neg hc]
        exact h0
    have hW2 : fieldWrites f s cw hr
        (getAttr (setAll (fieldWritesCore f s cw
          (resolveApplyRequired f.required hr none)) D0) "required") =
        fieldWritesCore f s cw (resolveApplyRequired f.required hr none) := by
      rw [htat2]
      by_cases hc :
        (s.required && resolveApplyRequired f.required hr none && !cw) = true
      · rw [if_pos hc]
        have hr1t : resolveApplyRequired f.required hr none = true := by
          rw [Bool.and_eq_true, Bool.and_eq_true] at hc
          exact hc.1.2
        show fieldWritesCore f s cw
          (resolveApplyRequired f.required hr (some "required")) = _
        rw [resolveApplyRequired_none_true f.required hr hr1t (some "required"), hr1t]
      · rw [if_neg hc]
        rfl
    have e2d : (applyValidationPipeline f s cw hr ts2
        (applyValidationPipeline f s cw hr ts1 (F0, D0))).2 =
        setAll (fieldWritesCore f s cw (resolveApplyRequired f.required hr none))
          (setAll (fieldWritesCore f s cw (resolveApplyRequired f.required hr none))
            D0) := by
      show setAll (fieldWrites f s cw hr
          (getAttr (applyValidationPipeline f s cw hr ts1 (F0, D0)).2 "required"))
          (applyValidationPipeline f s cw hr ts1 (F0, D0)).2 = _
      rw [e1d, hW2]
    rw [e2d, e1d, getAttr_setAll, getAttr_setAll]
    cases hw : lastAssoc (fieldWritesCore f s cw
        (resolveApplyRequired f.required hr none)) k with
    | some v => rfl
    | none => rfl

/-- Witness for the amended C9: two consecutive applies with timestamps
`"t1"` and `"t2"` on fresh nodes agree at `novalidate` on the form node
and at `required` on the field node. -/
theorem c9_determinism_amended_witness :
    getAttr (applyValidationPipeline (RField.mk "Name" "name-f" "FormTextInput" true)
      (Rules.mk true true true true) false RequiredProbe.absent "t2"
      (applyValidationPipeline (RField.mk "Name" "name-f" "FormTextInput" true)
        (Rules.mk true true true true) false RequiredProbe.absent "t1"
        ([], []))).1 "novalidate" =
    getAttr (applyValidationPipeline (RField.mk "Name" "name-f" "FormTextInput" true)
      (Rules.mk true true true true) false RequiredProbe.absent "t1"
      ([], [])).1 "novalidate" :=
  (c9_determinism_amended (RField.mk "Name" "name-f" "FormTextInput" true)
    (Rules.mk true true true true) false RequiredProbe.absent "t1" "t2" [] []
    (fun _ _ => rfl) (fun _ _ => rfl)).1 "novalidate" (by decide)

end A11y

namespace A11y

/-- Witness for the amended C3: `"Email"` passes the pre-filter,
classifies as email, and with a host-required flag is retained. -/
theorem c3_retention_amended_witness :
    retainField "Email" (RequiredProbe.returns true) = true :=
  (c3_retention_amended.1 "Email" (RequiredProbe.returns true)).mpr
    ⟨by decide, by decide, rfl⟩

/-- Witness for the amended C8: the written pattern and the embedded
runtime agree at the concrete value `"12345678901"`. -/
theorem c8_phone_rule_amended_witness :
    appliedPhonePatternOk "12345678901" = embeddedPhoneRegexOk "12345678901" :=
  c8_phone_rule_amended.1 "12345678901"

end A11y
